import Mathlib

/-!
Shallow embedding of the Macro-LiquidityStress monitoring engine
(`src/app.py`, with `src/apptest2.py` a near-duplicate), covering:

* the threshold tables (`WARNING_LEVELS`, app.py:104-124);
* the per-indicator threshold classifier and the aggregate scorer
  (`assess_liquidity_status`, app.py:179-288);
* the percentage-change computations, including the unguarded
  reserve-balance 30-observation change (app.py:211-215) and the guarded
  7-observation changes of the risk-signal section (app.py:1016-1018);
* the rolling moving averages (app.py:168-172);
* the fetch / outer-join / forward-fill / truncate pipeline
  (`fetch_data_with_ffill`, app.py:129-141 and `fetch_liquidity_data`,
  app.py:143-174);
* the risk-signal list of `main` (app.py:1010-1030).

Numeric values are modelled as exact rationals.  The one place the Python
code can produce a non-finite float — an unguarded division by zero, which
under IEEE-754/numpy semantics yields a signed infinity or NaN rather than
raising — is modelled by the `PFloat` type below.
-/

namespace LiquidityStress

/-- Severity level of a single indicator: the four tiers assigned by
`assess_liquidity_status` (danger 🔴, warning 🟠, caution 🟡, normal 🟢). -/
inductive Level where
  | danger
  | warning
  | caution
  | normal
deriving DecidableEq

/-- The ordinal `score` field attached to each tier in
`assess_liquidity_status`: danger = 0, warning = 1, caution = 2, normal = 3. -/
def Level.score : Level → ℕ
  | .danger => 0
  | .warning => 1
  | .caution => 2
  | .normal => 3

/-- `WARNING_LEVELS['RP']['normal']` (app.py:106). -/
def WARNING_LEVELS_RP_normal : ℚ := 20

/-- `WARNING_LEVELS['RP']['warning']` (app.py:107). -/
def WARNING_LEVELS_RP_warning : ℚ := 30

/-- `WARNING_LEVELS['RP']['danger']` (app.py:108). -/
def WARNING_LEVELS_RP_danger : ℚ := 50

/-- `WARNING_LEVELS['RRP']['danger']` (app.py:111). -/
def WARNING_LEVELS_RRP_danger : ℚ := 100

/-- `WARNING_LEVELS['RRP']['warning']` (app.py:112). -/
def WARNING_LEVELS_RRP_warning : ℚ := 200

/-- `WARNING_LEVELS['RRP']['normal']` (app.py:113). -/
def WARNING_LEVELS_RRP_normal : ℚ := 300

/-- `WARNING_LEVELS['Reserves']['danger']` (app.py:116). -/
def WARNING_LEVELS_Reserves_danger : ℚ := 3000

/-- `WARNING_LEVELS['Reserves']['warning']` (app.py:117). -/
def WARNING_LEVELS_Reserves_warning : ℚ := 3200

/-- `WARNING_LEVELS['Spread']['normal']` (app.py:120). -/
def WARNING_LEVELS_Spread_normal : ℚ := 10

/-- `WARNING_LEVELS['Spread']['warning']` (app.py:121). -/
def WARNING_LEVELS_Spread_warning : ℚ := 20

/-- `WARNING_LEVELS['Spread']['danger']` (app.py:122). -/
def WARNING_LEVELS_Spread_danger : ℚ := 100

/-- The value of a Python floating-point expression as the pipeline can
produce it: a finite value (kept exact as a rational), `+inf`, `-inf`, or
`NaN`.  Finite arithmetic in the pipeline is modelled exactly; the only
source of non-finite values is an unguarded division by zero, which under
numpy float semantics yields `±inf` (or `NaN` for `0/0`) instead of raising. -/
inductive PFloat where
  | fin (q : ℚ)
  | inf
  | ninf
  | nan
deriving DecidableEq

/-- The Python comparison `x < c` between a float `x` and a finite constant
`c`: false for `+inf` and `NaN`, true for `-inf`. -/
def PFloat.ltQ : PFloat → ℚ → Bool
  | .fin q, c => decide (q < c)
  | .inf, _ => false
  | .ninf, _ => true
  | .nan, _ => false

/-- `(latest - past) / past * 100` exactly as the Python code computes it,
with no guard on the denominator: for `past = 0` numpy division yields a
signed infinity (or NaN when the numerator is also 0). -/
def pctChange (latest past : ℚ) : PFloat :=
  if past = 0 then
    if 0 < latest - past then .inf
    else if latest - past < 0 then .ninf
    else .nan
  else .fin ((latest - past) / past * 100)

/-- One row of the aligned frame as consumed by `assess_liquidity_status`
and the risk-signal section: the five raw columns.  `Spread_bps` is the
derived column `(SOFR - IORB) * 100` (app.py:166). -/
structure Row where
  rp : ℚ
  rrp : ℚ
  reserves : ℚ
  sofr : ℚ
  iorb : ℚ
deriving DecidableEq

instance : Inhabited Row := ⟨⟨0, 0, 0, 0, 0⟩⟩

/-- The derived column `df['Spread_bps'] = (df['SOFR'] - df['IORB']) * 100`
(app.py:166), read off the row. -/
def Row.spread_bps (r : Row) : ℚ := (r.sofr - r.iorb) * 100

/-- The RP branch of `assess_liquidity_status` (app.py:187-196): tested
danger first, then warning, then caution, else normal; `>` comparisons
against `WARNING_LEVELS['RP']`. -/
def rp_status (rp_val : ℚ) : Level :=
  if WARNING_LEVELS_RP_danger < rp_val then .danger
  else if WARNING_LEVELS_RP_warning < rp_val then .warning
  else if WARNING_LEVELS_RP_normal < rp_val then .caution
  else .normal

/-- The RRP branch of `assess_liquidity_status` (app.py:199-208): `<`
comparisons against `WARNING_LEVELS['RRP']`, danger first. -/
def rrp_status (rrp_val : ℚ) : Level :=
  if rrp_val < WARNING_LEVELS_RRP_danger then .danger
  else if rrp_val < WARNING_LEVELS_RRP_warning then .warning
  else if rrp_val < WARNING_LEVELS_RRP_normal then .caution
  else .normal

/-- The Reserves branch of `assess_liquidity_status` (app.py:217-225):
danger and warning by numeric level, then the trend condition
`res_change_30d < -5` for caution, else normal. -/
def res_status (res_val : ℚ) (res_change_30d : PFloat) : Level :=
  if res_val < WARNING_LEVELS_Reserves_danger then .danger
  else if res_val < WARNING_LEVELS_Reserves_warning then .warning
  else if res_change_30d.ltQ (-5) then .caution
  else .normal

/-- The Spread branch of `assess_liquidity_status` (app.py:229-236). -/
def spread_status (spread_val : ℚ) : Level :=
  if WARNING_LEVELS_Spread_danger < spread_val then .danger
  else if WARNING_LEVELS_Spread_warning < spread_val then .warning
  else if WARNING_LEVELS_Spread_normal < spread_val then .caution
  else .normal

/-- `df['Reserves'].iloc[-30]`: the 30th element counting from the end of
the frame (index `length - 30`). -/
def reserves_30_ago (df : List Row) : ℚ :=
  (df.getD (df.length - 30) default).reserves

/-- The reserve-balance 30-observation percentage change of
`assess_liquidity_status` (app.py:212-215):
`((latest - iloc[-30]) / iloc[-30]) * 100` when the frame has at least 30
rows — an unguarded division — and the literal `0` otherwise. -/
def res_change_30d (df : List Row) : PFloat :=
  if 30 ≤ df.length then
    pctChange (df.getLastD default).reserves (reserves_30_ago df)
  else .fin 0

/-- Overall status tier of the aggregate scorer: the `level` strings
`'NORMAL' / 'CAUTION' / 'WARNING' / 'DANGER'` of app.py:244-271. -/
inductive OverallLevel where
  | NORMAL
  | CAUTION
  | WARNING
  | DANGER
deriving DecidableEq

/-- The composite-score mapping of `assess_liquidity_status`
(app.py:244-271), evaluated high-to-low on `total_score`. -/
def overall_of_score (total_score : ℕ) : OverallLevel :=
  if 10 ≤ total_score then .NORMAL
  else if 7 ≤ total_score then .CAUTION
  else if 4 ≤ total_score then .WARNING
  else .DANGER

/-- The output of `assess_liquidity_status` restricted to the fields the
verified claims are about: the four per-indicator tiers, the composite
score, and the overall tier. -/
structure AssessResult where
  rp : Level
  rrp : Level
  reserves : Level
  spread : Level
  total_score : ℕ
  overall : OverallLevel
deriving DecidableEq

/-- `assess_liquidity_status(df)` (app.py:179-288): classify the latest row
of each indicator, sum the four ordinal scores, and map the sum to an
overall tier.  `latest` is `df.iloc[-1]`. -/
def assess_liquidity_status (df : List Row) : AssessResult :=
  let latest := df.getLastD default
  let rp := rp_status latest.rp
  let rrp := rrp_status latest.rrp
  let res := res_status latest.reserves (res_change_30d df)
  let spread := spread_status latest.spread_bps
  let total := rp.score + rrp.score + res.score + spread.score
  { rp := rp, rrp := rrp, reserves := res, spread := spread,
    total_score := total, overall := overall_of_score total }

/-- Arithmetic mean of a list of rationals, as `pandas` `.mean()` computes
it on a fully observed window (sum divided by length). -/
def listMean (xs : List ℚ) : ℚ := xs.sum / xs.length

/-- `series.rolling(window=w, min_periods=1).mean()` (app.py:170-172) on a
column of observations: at index `k` the value is the mean of the trailing
window `xs[max(0, k-w+1) .. k]`, i.e. of the last `min (k+1) w` elements of
the first `k+1`. -/
def rollingMean (w : ℕ) (xs : List ℚ) : List ℚ :=
  (List.range xs.length).map (fun k => listMean ((xs.take (k + 1)).drop (k + 1 - w)))

/-- `df['RP'].iloc[-7]`: the 7th element counting from the end. -/
def rp_7_ago (df : List Row) : ℚ :=
  (df.getD (df.length - 7) default).rp

/-- `df['RRP'].iloc[-7]`: the 7th element counting from the end. -/
def rrp_7_ago (df : List Row) : ℚ :=
  (df.getD (df.length - 7) default).rrp

/-- `rp_change_7d` of `main` (app.py:1017): the 7-observation RP change,
guarded to `0` when `df['RP'].iloc[-7]` is `0`. -/
def rp_change_7d (df : List Row) : ℚ :=
  if rp_7_ago df ≠ 0 then
    ((df.getLastD default).rp - rp_7_ago df) / rp_7_ago df * 100
  else 0

/-- `rrp_change_7d` of `main` (app.py:1018): the 7-observation RRP change,
guarded to `0` when `df['RRP'].iloc[-7]` is `0`. -/
def rrp_change_7d (df : List Row) : ℚ :=
  if rrp_7_ago df ≠ 0 then
    ((df.getLastD default).rrp - rrp_7_ago df) / rrp_7_ago df * 100
  else 0

/-- An entry of the `risk_signals` list of `main` (app.py:1010-1024):
either a level-based entry for an indicator whose ordinal score is ≤ 1, or
one of the two velocity-based abrupt-move entries. -/
inductive Signal where
  | levelRP
  | levelRRP
  | levelReserves
  | levelSpread
  | abruptRP
  | abruptRRP
deriving DecidableEq

/-- The level-based entries of `risk_signals` (app.py:1012-1014): the loop
over `['RP', 'RRP', 'Reserves', 'Spread']` appending an entry for each
indicator whose ordinal score is ≤ 1, in that order. -/
def level_signals (a : AssessResult) : List Signal :=
  (if a.rp.score ≤ 1 then [Signal.levelRP] else []) ++
  (if a.rrp.score ≤ 1 then [Signal.levelRRP] else []) ++
  (if a.reserves.score ≤ 1 then [Signal.levelReserves] else []) ++
  (if a.spread.score ≤ 1 then [Signal.levelSpread] else [])

/-- The velocity-based entries of `risk_signals` (app.py:1016-1024): only
computed when the frame has at least 7 rows; RP flagged when
`abs(rp_change_7d) > 50`, then RRP when `abs(rrp_change_7d) > 30`. -/
def abrupt_signals (df : List Row) : List Signal :=
  if 7 ≤ df.length then
    (if 50 < |rp_change_7d df| then [Signal.abruptRP] else []) ++
    (if 30 < |rrp_change_7d df| then [Signal.abruptRRP] else [])
  else []

/-- The complete `risk_signals` list of `main` (app.py:1010-1024): level
entries first (in indicator order), then the abrupt-move entries. -/
def risk_signals (df : List Row) (a : AssessResult) : List Signal :=
  level_signals a ++ abrupt_signals df

/-- What the risk-signal section renders (app.py:1026-1030): the collected
signals as warnings when the list is nonempty, else the all-clear line. -/
inductive RiskDisplay where
  | warnings (signals : List Signal)
  | allClear
deriving DecidableEq

/-- `if risk_signals: ... else: st.success(...)` (app.py:1026-1030). -/
def risk_display (df : List Row) (a : AssessResult) : RiskDisplay :=
  if risk_signals df a ≠ [] then .warnings (risk_signals df a) else .allClear

/-!
## Fetching, outer join, forward fill and truncation

A raw series is modelled as its list of (date, value) observations in
chronological order; a date carries a value exactly when the provider
reported a non-missing observation there.  On such a series the per-series
`data.ffill()` of `fetch_data_with_ffill` (app.py:135) is the identity, so
it does not appear separately below; the frame-level `df.ffill()`
(app.py:163) is modelled by `ffillCol`.
-/

/-- A fetched time series: chronologically ordered (date, value)
observations.  Dates are abstract day numbers. -/
abbrev RawSeries := List (ℕ × ℚ)

/-- A series is well-formed when its observation dates are strictly
increasing (the provider returns chronologically ordered, duplicate-free
observations). -/
def SortedSeries (s : RawSeries) : Prop :=
  List.Pairwise (fun p q => p.1 < q.1) s

/-- The warning surfaced by `st.error` in `fetch_data_with_ffill`
(app.py:140): it names the failed series (`name or series_id`) and carries
the provider's error text. -/
structure FetchWarning where
  series_shown : String
  err : String
deriving DecidableEq

/-- `fetch_data_with_ffill(series_id, start_date, name)` (app.py:129-141).
The provider call is modelled by its outcome `resp`: either the list of
observations from `start_date` on, or an error message.  On success with at
least one observation the (already chronological, non-missing) data is
returned; on zero observations an empty series; on a provider error an
empty series together with the warning naming the series (`name or
series_id`, Python falsiness of the empty string). -/
def fetch_data_with_ffill (series_id name : String)
    (resp : Except String RawSeries) : RawSeries × List FetchWarning :=
  match resp with
  | .ok data => if 0 < data.length then (data, []) else ([], [])
  | .error e => ([], [⟨if name = "" then series_id else name, e⟩])

/-- Insert a date into a strictly-sorted ascending date list, keeping it
strictly sorted (used to model the union-of-indices that
`pd.DataFrame(all_data)` builds at app.py:162). -/
def insertDate (d : ℕ) : List ℕ → List ℕ
  | [] => [d]
  | e :: rest =>
    if d < e then d :: e :: rest
    else if d = e then e :: rest
    else e :: insertDate d rest

/-- The sorted union of the observation dates of a list of series: the
index of the outer-joined frame `pd.DataFrame(all_data)` (app.py:162). -/
def unionDates (ss : List RawSeries) : List ℕ :=
  ss.foldr (fun s acc => s.foldr (fun p acc2 => insertDate p.1 acc2) acc) []

/-- The cell a series contributes at an exact date of the joined frame:
`some v` when the series has an observation on that date, `none` (NaN)
otherwise. -/
def exactLookup (s : RawSeries) (d : ℕ) : Option ℚ :=
  (s.find? (fun p => p.1 == d)).map Prod.snd

/-- One column of the joined frame before forward fill: the series looked
up exactly at each index date. -/
def joinColumn (s : RawSeries) (dates : List ℕ) : List (Option ℚ) :=
  dates.map (exactLookup s)

/-- Column-wise forward fill, the effect of `df.ffill()` (app.py:163) on
one column: a missing cell takes the most recent filled value above it
(`carry`), and remains missing if there is none. -/
def ffillCol (carry : Option ℚ) : List (Option ℚ) → List (Option ℚ)
  | [] => []
  | none :: rest => carry :: ffillCol carry rest
  | some v :: rest => some v :: ffillCol (some v) rest

/-- The most recent observation of a series at or before cutoff `b`
(an integer so that `-1` means "before every date").  `none` when the
series has no observation at or before `b`. -/
def lastObsZ (s : RawSeries) (b : ℤ) : Option ℚ :=
  ((s.filter (fun p => decide ((p.1 : ℤ) ≤ b))).getLast?).map Prod.snd

/-- The most recent observation of a series at or before date `d`. -/
def lastObs (s : RawSeries) (d : ℕ) : Option ℚ := lastObsZ s d

/-- Keep only the rows of a column whose date is ≥ `start`:
`df = df[df.index >= start_date]` (app.py:164) on one column. -/
def filterRows (dates : List ℕ) (start : ℕ) (col : List (Option ℚ)) : List (Option ℚ) :=
  ((dates.zip col).filter (fun p => decide (start ≤ p.1))).map Prod.snd

/-- `(SOFR - IORB) * 100` on possibly-missing cells: NaN propagates
(app.py:166). -/
def spreadCell : Option ℚ → Option ℚ → Option ℚ
  | some a, some b => some ((a - b) * 100)
  | _, _ => none

/-- The aligned frame built by `fetch_liquidity_data` (app.py:154-166),
in columnar form as pandas holds it: the date index plus one column per
raw series and the derived spread column.  Cells are `none` where the
frame holds NaN (a date before the first observation of that series). -/
structure AlignedFrame where
  dates : List ℕ
  rp : List (Option ℚ)
  rrp : List (Option ℚ)
  reserves : List (Option ℚ)
  sofr : List (Option ℚ)
  iorb : List (Option ℚ)
  spread_bps : List (Option ℚ)
deriving DecidableEq

/-- The frame construction of `fetch_liquidity_data` (app.py:154-166), in
the source's order: outer-join the five series on the union of their dates
(`pd.DataFrame(all_data)`), forward-fill every column (`df.ffill()`), drop
all rows with date < `start` (`df[df.index >= start_date]`), then compute
the derived spread column. -/
def build_frame (rpS rrpS resS sofrS iorbS : RawSeries) (start : ℕ) : AlignedFrame :=
  let dates0 := unionDates [rpS, rrpS, resS, sofrS, iorbS]
  let col := fun s => ffillCol none (joinColumn s dates0)
  let keep := fun c => filterRows dates0 start c
  let rpC := keep (col rpS)
  let rrpC := keep (col rrpS)
  let resC := keep (col resS)
  let sofrC := keep (col sofrS)
  let iorbC := keep (col iorbS)
  { dates := dates0.filter (fun d => decide (start ≤ d)),
    rp := rpC, rrp := rrpC, reserves := resC, sofr := sofrC, iorb := iorbC,
    spread_bps := List.zipWith spreadCell sofrC iorbC }

/-- The outcomes of the five independent provider calls issued by
`fetch_liquidity_data` (app.py:148-152), one per series. -/
structure Responses where
  rp : Except String RawSeries
  rrp : Except String RawSeries
  reserves : Except String RawSeries
  sofr : Except String RawSeries
  iorb : Except String RawSeries

/-- `fetch_liquidity_data(start_date)` (app.py:143-174) given the five
provider outcomes: each series is fetched independently through
`fetch_data_with_ffill` (a failure yields that series empty plus its
warning, without touching the others), then the frame is built.  Returns
the frame together with all surfaced warnings. -/
def fetch_liquidity_data (start : ℕ) (rs : Responses) : AlignedFrame × List FetchWarning :=
  let rp := fetch_data_with_ffill "RPONTSYD" "RP (Repo)" rs.rp
  let rrp := fetch_data_with_ffill "RRPONTSYD" "RRP (Reverse Repo)" rs.rrp
  let res := fetch_data_with_ffill "WRESBAL" "은행 지준금" rs.reserves
  let sofr := fetch_data_with_ffill "SOFR" "SOFR" rs.sofr
  let iorb := fetch_data_with_ffill "IORB" "IORB" rs.iorb
  (build_frame rp.1 rrp.1 res.1 sofr.1 iorb.1 start,
   rp.2 ++ rrp.2 ++ res.2 ++ sofr.2 ++ iorb.2)

/-!
## Concrete test fixtures

Frames used as concrete inputs for examples, witnesses and
counterexamples.  They are inputs to the embedded functions, not
translations of source code.
-/

/-- A row with neutral RP/RRP/spread values and the given reserve level. -/
def resRow (res : ℚ) : Row :=
  { rp := 10, rrp := 350, reserves := res, sofr := 4, iorb := 4 }

/-- The spec's reserve-trend example frame: 30 rows, reserves 3800 at the
30th-from-last position and 3500 thereafter, so the latest value 3500 is
above both numeric thresholds while the 30-observation change is
-300/3800·100 ≈ -7.89%. -/
def c1Frame : List Row := resRow 3800 :: List.replicate 29 (resRow 3500)

/-- A 30-row frame whose reserve value 30-from-last is 0: the denominator
of the unguarded 30-observation change. -/
def c3Frame : List Row := resRow 0 :: List.replicate 29 (resRow 3500)

/-- A 31-row frame separating the 30th-from-last reserve value (200, which
the code uses) from the value exactly 30 observations before the latest row
(100). -/
def c4Frame : List Row := resRow 100 :: resRow 200 :: List.replicate 29 (resRow 3500)

/-- An 8-observation series whose trailing MA7 at the 8th row differs from
the mean of its first 7 observations. -/
def c6xs : List ℚ := [0, 0, 0, 0, 0, 0, 0, 7]

/-- A 7-row frame with an abrupt RP move: RP goes 10 → 100 over the window
(change +900%), RRP stays flat. -/
def c9Frame : List Row :=
  List.replicate 6 (resRow 3500) ++ [{ rp := 100, rrp := 350, reserves := 3500, sofr := 4, iorb := 4 }]

/-- An all-normal assessment fixture. -/
def normalAssess : AssessResult :=
  { rp := .normal, rrp := .normal, reserves := .normal, spread := .normal,
    total_score := 12, overall := .NORMAL }

/-- An assessment fixture with RP at warning (score 1). -/
def rpWarnAssess : AssessResult :=
  { rp := .warning, rrp := .normal, reserves := .normal, spread := .normal,
    total_score := 10, overall := .NORMAL }

/-- Concrete RP series for the frame-construction witness. -/
def w7rp : RawSeries := [(1, 4), (3, 5)]

/-- Concrete RRP series for the frame-construction witness. -/
def w7rrp : RawSeries := [(2, 7)]

/-- Concrete reserves series for the frame-construction witness. -/
def w7res : RawSeries := [(1, 3000)]

/-- Concrete SOFR series for the frame-construction witness. -/
def w7sofr : RawSeries := [(1, 5)]

/-- Concrete IORB series for the frame-construction witness. -/
def w7iorb : RawSeries := [(2, 4)]

/-!
## Theorems
-/

/-- Each ordinal score is at most 3. -/
theorem Level.score_le_three (l : Level) : l.score ≤ 3 := by
  cases l <;> simp [Level.score]

/-- C1: for every aligned frame the threshold classifier evaluates each
indicator's bands from most severe to least severe with the first match
winning — the four band characterizations below are exclusive and
exhaustive in that order — and in particular a reserve-balance latest value
at or above both numeric thresholds (≥ 3200) whose 30-observation change is
below -5% is classified caution with ordinal score 2; on the concrete
example frame (latest 3500, 30-obs-ago 3800) the change is -150/19 ≈ -7.89%
and the tier is caution, not normal. -/
theorem c1_first_match_wins :
    (∀ v : ℚ,
      (rp_status v = .danger ↔ 50 < v) ∧
      (rp_status v = .warning ↔ 30 < v ∧ v ≤ 50) ∧
      (rp_status v = .caution ↔ 20 < v ∧ v ≤ 30) ∧
      (rp_status v = .normal ↔ v ≤ 20)) ∧
    (∀ v : ℚ,
      (rrp_status v = .danger ↔ v < 100) ∧
      (rrp_status v = .warning ↔ 100 ≤ v ∧ v < 200) ∧
      (rrp_status v = .caution ↔ 200 ≤ v ∧ v < 300) ∧
      (rrp_status v = .normal ↔ 300 ≤ v)) ∧
    (∀ (v : ℚ) (c : PFloat),
      (res_status v c = .danger ↔ v < 3000) ∧
      (res_status v c = .warning ↔ 3000 ≤ v ∧ v < 3200) ∧
      (res_status v c = .caution ↔ 3200 ≤ v ∧ c.ltQ (-5) = true) ∧
      (res_status v c = .normal ↔ 3200 ≤ v ∧ c.ltQ (-5) = false)) ∧
    (∀ v : ℚ,
      (spread_status v = .danger ↔ 100 < v) ∧
      (spread_status v = .warning ↔ 20 < v ∧ v ≤ 100) ∧
      (spread_status v = .caution ↔ 10 < v ∧ v ≤ 20) ∧
      (spread_status v = .normal ↔ v ≤ 10)) ∧
    (∀ df : List Row, 3200 ≤ (df.getLastD default).reserves →
      (res_change_30d df).ltQ (-5) = true →
      (assess_liquidity_status df).reserves = .caution ∧
      (assess_liquidity_status df).reserves.score = 2) ∧
    (res_change_30d c1Frame = PFloat.fin (-150 / 19) ∧
     (assess_liquidity_status c1Frame).reserves = .caution ∧
     (assess_liquidity_status c1Frame).reserves.score = 2) := by
  have hex : res_change_30d c1Frame = PFloat.fin (-150 / 19) := by
    have h1 : c1Frame.getLastD default = resRow 3500 := rfl
    have h2 : reserves_30_ago c1Frame = 3800 := rfl
    have h3 : c1Frame.length = 30 := rfl
    rw [res_change_30d, if_pos (by rw [h3]), h1, h2, pctChange, if_neg (by norm_num)]
    norm_num [resRow]
  refine ⟨?_, ?_, ?_, ?_, ?_, ?_⟩
  · intro v
    unfold rp_status WARNING_LEVELS_RP_danger WARNING_LEVELS_RP_warning WARNING_LEVELS_RP_normal
    split_ifs with h1 h2 h3 <;>
      refine ⟨?_, ?_, ?_, ?_⟩ <;> simp <;>
      first
        | linarith
        | (constructor <;> intros <;> first | rfl | linarith)
        | (intros; linarith)
        | (constructor <;> first | linarith | (intros; linarith))
  · intro v
    unfold rrp_status WARNING_LEVELS_RRP_danger WARNING_LEVELS_RRP_warning WARNING_LEVELS_RRP_normal
    split_ifs with h1 h2 h3 <;>
      refine ⟨?_, ?_, ?_, ?_⟩ <;> simp <;>
      first
        | linarith
        | (constructor <;> intros <;> first | rfl | linarith)
        | (intros; linarith)
        | (constructor <;> first | linarith | (intros; linarith))
  · intro v c
    unfold res_status WARNING_LEVELS_Reserves_danger WARNING_LEVELS_Reserves_warning
    split_ifs with h1 h2 h3 <;>
      refine ⟨?_, ?_, ?_, ?_⟩ <;> simp_all <;>
      first
        | linarith
        | (constructor <;> intros <;> first | rfl | linarith)
        | (intros; linarith)
        | (constructor <;> first | linarith | (intros; linarith))
  · intro v
    unfold spread_status WARNING_LEVELS_Spread_danger WARNING_LEVELS_Spread_warning
      WARNING_LEVELS_Spread_normal
    split_ifs with h1 h2 h3 <;>
      refine ⟨?_, ?_, ?_, ?_⟩ <;> simp <;>
      first
        | linarith
        | (constructor <;> intros <;> first | rfl | linarith)
        | (intros; linarith)
        | (constructor <;> first | linarith | (intros; linarith))
  · intro df hval hch
    have hres : (assess_liquidity_status df).reserves =
        res_status (df.getLastD default).reserves (res_change_30d df) := rfl
    rw [hres, res_status, if_neg (by unfold WARNING_LEVELS_Reserves_danger; linarith),
      if_neg (by unfold WARNING_LEVELS_Reserves_warning; linarith), if_pos hch]
    exact ⟨rfl, rfl⟩
  · refine ⟨hex, ?_⟩
    have hres : (assess_liquidity_status c1Frame).reserves =
        res_status (c1Frame.getLastD default).reserves (res_change_30d c1Frame) := rfl
    have h1 : c1Frame.getLastD default = resRow 3500 := rfl
    rw [hres, hex, h1, res_status]
    rw [if_neg (by norm_num [resRow, WARNING_LEVELS_Reserves_danger]),
      if_neg (by norm_num [resRow, WARNING_LEVELS_Reserves_warning]),
      if_pos (by norm_num [PFloat.ltQ])]
    exact ⟨rfl, rfl⟩

/-- Witness for `c1_first_match_wins`: applying the reserve-trend clause to
the concrete example frame. -/
theorem c1_witness :
    (3200 : ℚ) ≤ (c1Frame.getLastD default).reserves ∧
    (assess_liquidity_status c1Frame).reserves = .caution := by
  have hval : (3200 : ℚ) ≤ (c1Frame.getLastD default).reserves := by
    have h1 : c1Frame.getLastD default = resRow 3500 := rfl
    rw [h1]; norm_num [resRow]
  have hch : (res_change_30d c1Frame).ltQ (-5) = true := by
    have h1 : c1Frame.getLastD default = resRow 3500 := rfl
    have h2 : reserves_30_ago c1Frame = 3800 := rfl
    have h3 : c1Frame.length = 30 := rfl
    rw [res_change_30d, if_pos (by rw [h3]), h1, h2, pctChange, if_neg (by norm_num)]
    norm_num [resRow, PFloat.ltQ]
  exact ⟨hval, (c1_first_match_wins.2.2.2.2.1 c1Frame hval hch).1⟩

/-- C2: the composite score is exactly the sum of the four ordinal scores
and lies in [0, 12]; the overall tier is a pure function of that sum alone
(`overall_of_score`), evaluated high-to-low (≥10 good/NORMAL, ≥7 CAUTION,
≥4 WARNING, else DANGER); scores 0+3+1+3 = 7 give the caution tier. -/
theorem c2_aggregate_scorer :
    (∀ df : List Row,
      (assess_liquidity_status df).total_score =
        (assess_liquidity_status df).rp.score + (assess_liquidity_status df).rrp.score +
          (assess_liquidity_status df).reserves.score +
          (assess_liquidity_status df).spread.score ∧
      (assess_liquidity_status df).total_score ≤ 12 ∧
      (assess_liquidity_status df).overall =
        overall_of_score (assess_liquidity_status df).total_score) ∧
    (∀ n : ℕ,
      (10 ≤ n → overall_of_score n = .NORMAL) ∧
      (7 ≤ n → n ≤ 9 → overall_of_score n = .CAUTION) ∧
      (4 ≤ n → n ≤ 6 → overall_of_score n = .WARNING) ∧
      (n ≤ 3 → overall_of_score n = .DANGER)) ∧
    Level.score .danger + Level.score .normal + Level.score .warning + Level.score .normal = 7 ∧
    overall_of_score (Level.score .danger + Level.score .normal + Level.score .warning +
      Level.score .normal) = .CAUTION := by
  refine ⟨?_, ?_, by simp [Level.score], by simp [Level.score]; rfl⟩
  · intro df
    refine ⟨rfl, ?_, rfl⟩
    have h1 := Level.score_le_three (assess_liquidity_status df).rp
    have h2 := Level.score_le_three (assess_liquidity_status df).rrp
    have h3 := Level.score_le_three (assess_liquidity_status df).reserves
    have h4 := Level.score_le_three (assess_liquidity_status df).spread
    have hsum : (assess_liquidity_status df).total_score =
        (assess_liquidity_status df).rp.score + (assess_liquidity_status df).rrp.score +
          (assess_liquidity_status df).reserves.score +
          (assess_liquidity_status df).spread.score := rfl
    omega
  · intro n
    unfold overall_of_score
    split_ifs <;> refine ⟨?_, ?_, ?_, ?_⟩ <;> intros <;> first | rfl | omega

/-- Witness for `c2_aggregate_scorer`: the score/tier laws evaluated on a
concrete frame, and the high-to-low mapping at the sums 10, 7, 4 and 3. -/
theorem c2_witness :
    (assess_liquidity_status c1Frame).total_score ≤ 12 ∧
    overall_of_score 10 = .NORMAL ∧ overall_of_score 7 = .CAUTION ∧
    overall_of_score 4 = .WARNING ∧ overall_of_score 3 = .DANGER :=
  ⟨(c2_aggregate_scorer.1 c1Frame).2.1,
   (c2_aggregate_scorer.2.1 10).1 (by decide),
   (c2_aggregate_scorer.2.1 7).2.1 (by decide) (by decide),
   (c2_aggregate_scorer.2.1 4).2.2.1 (by decide) (by decide),
   (c2_aggregate_scorer.2.1 3).2.2.2 (by decide)⟩

/-- C5: the classifier is monotone in each indicator's danger direction.
Increasing the latest RP or spread value never yields a strictly higher
ordinal score; decreasing the latest RRP value never yields a strictly
higher ordinal score; and with the 30-observations-ago reserve value held
fixed, decreasing the latest reserve value (which also feeds the trend
term) never yields a strictly higher ordinal score. -/
theorem c5_monotonicity :
    (∀ v1 v2 : ℚ, v1 ≤ v2 → (rp_status v2).score ≤ (rp_status v1).score) ∧
    (∀ v1 v2 : ℚ, v1 ≤ v2 → (spread_status v2).score ≤ (spread_status v1).score) ∧
    (∀ v1 v2 : ℚ, v1 ≤ v2 → (rrp_status v1).score ≤ (rrp_status v2).score) ∧
    (∀ p v1 v2 : ℚ, v1 ≤ v2 →
      (res_status v1 (pctChange v1 p)).score ≤ (res_status v2 (pctChange v2 p)).score) := by
  refine ⟨?_, ?_, ?_, ?_⟩
  · intro v1 v2 h
    unfold rp_status WARNING_LEVELS_RP_danger WARNING_LEVELS_RP_warning WARNING_LEVELS_RP_normal
    split_ifs <;> simp [Level.score] <;> first | omega | (exfalso; linarith)
  · intro v1 v2 h
    unfold spread_status WARNING_LEVELS_Spread_danger WARNING_LEVELS_Spread_warning
      WARNING_LEVELS_Spread_normal
    split_ifs <;> simp [Level.score] <;> first | omega | (exfalso; linarith)
  · intro v1 v2 h
    unfold rrp_status WARNING_LEVELS_RRP_danger WARNING_LEVELS_RRP_warning
      WARNING_LEVELS_RRP_normal
    split_ifs <;> simp [Level.score] <;> first | omega | (exfalso; linarith)
  · intro p v1 v2 h
    by_cases hp : p = 0
    · subst hp
      have hkey : ∀ v : ℚ, 3200 ≤ v → (pctChange v 0).ltQ (-5) = false := by
        intro v hv
        unfold pctChange PFloat.ltQ
        rw [if_pos rfl, if_pos (by linarith)]
      have hform : ∀ v : ℚ, (res_status v (pctChange v 0)).score =
          if v < 3000 then 0 else if v < 3200 then 1 else 3 := by
        intro v
        unfold res_status WARNING_LEVELS_Reserves_danger WARNING_LEVELS_Reserves_warning
        split_ifs with h1 h2 h3
        · rfl
        · rfl
        · exact absurd h3 (by rw [hkey v (by linarith)]; simp)
        · rfl
      rw [hform v1, hform v2]
      split_ifs <;> first | omega | (exfalso; linarith)
    · have hchange : ∀ v w : ℚ, 3200 ≤ v → v ≤ w →
          (pctChange w p).ltQ (-5) = true → (pctChange v p).ltQ (-5) = true := by
        intro v w hv hvw hw
        rcases lt_or_gt_of_ne hp with hneg | hpos
        · unfold pctChange PFloat.ltQ
          rw [if_neg hp]
          simp only [decide_eq_true_eq]
          rw [div_mul_eq_mul_div, div_lt_iff_of_neg hneg]
          linarith
        · unfold pctChange PFloat.ltQ at hw ⊢
          rw [if_neg hp] at hw ⊢
          simp only [decide_eq_true_eq] at hw ⊢
          have hdiv : (v - p) / p ≤ (w - p) / p :=
            (div_le_div_iff_of_pos_right hpos).mpr (by linarith)
          linarith
      have hform : ∀ v : ℚ, (res_status v (pctChange v p)).score =
          if v < 3000 then 0 else if v < 3200 then 1
          else if (pctChange v p).ltQ (-5) = true then 2 else 3 := by
        intro v
        unfold res_status WARNING_LEVELS_Reserves_danger WARNING_LEVELS_Reserves_warning
        split_ifs <;> rfl
      rw [hform v1, hform v2]
      by_cases hv2 : v2 < 3000
      · rw [if_pos (show v1 < 3000 by linarith), if_pos hv2]
      · rw [if_neg hv2]
        by_cases hv2' : v2 < 3200
        · rw [if_pos hv2']
          by_cases hv1 : v1 < 3000
          · rw [if_pos hv1]; omega
          · rw [if_neg hv1, if_pos (show v1 < 3200 by linarith)]
        · rw [if_neg hv2']
          by_cases hc2 : (pctChange v2 p).ltQ (-5) = true
          · rw [if_pos hc2]
            by_cases hv1 : v1 < 3000
            · rw [if_pos hv1]; omega
            · rw [if_neg hv1]
              by_cases hv1' : v1 < 3200
              · rw [if_pos hv1']; omega
              · rw [if_neg hv1',
                  if_pos (hchange v1 v2 (le_of_not_lt hv1') h hc2)]
          · rw [if_neg hc2]
            split_ifs <;> omega

/-- Witness for `c5_monotonicity`: concrete instantiations in each danger
direction. -/
theorem c5_witness :
    (rp_status 55).score ≤ (rp_status 25).score ∧
    (rrp_status 150).score ≤ (rrp_status 350).score ∧
    (res_status 3100 (pctChange 3100 3800)).score ≤
      (res_status 3500 (pctChange 3500 3800)).score :=
  ⟨c5_monotonicity.1 25 55 (by norm_num),
   c5_monotonicity.2.2.1 150 350 (by norm_num),
   c5_monotonicity.2.2.2 3800 3100 3500 (by norm_num)⟩

/-- Counterexample to C3: on a 30-row frame whose reserve value
30-from-last is 0, the reserve-balance 30-observation change is the
unguarded division `(3500 - 0) / 0 * 100`, which is `+inf` under the
code's float semantics — not the `0.0` the claim asserts. -/
theorem c3_counterexample :
    res_change_30d c3Frame = PFloat.inf ∧ PFloat.inf ≠ PFloat.fin 0 := by
  refine ⟨?_, by simp⟩
  have h1 : c3Frame.getLastD default = resRow 3500 := rfl
  have h2 : reserves_30_ago c3Frame = 0 := rfl
  have h3 : c3Frame.length = 30 := rfl
  rw [res_change_30d, if_pos (by rw [h3]), h1, h2, pctChange, if_pos rfl,
    if_pos (by norm_num [resRow])]

/-- C3 amended: the 7-observation changes of the abrupt-move detector are
exactly 0 whenever their denominator (the value 7-from-last) is 0, and the
reserve-balance 30-observation change is 0 whenever the frame has fewer
than 30 rows; but with at least 30 rows and a zero denominator the
reserve change is an unguarded division and is never a finite value. -/
theorem c3_zero_guard_amended :
    (∀ df : List Row, rp_7_ago df = 0 → rp_change_7d df = 0) ∧
    (∀ df : List Row, rrp_7_ago df = 0 → rrp_change_7d df = 0) ∧
    (∀ df : List Row, df.length < 30 → res_change_30d df = .fin 0) ∧
    (∀ df : List Row, 30 ≤ df.length → reserves_30_ago df = 0 →
      ∀ q : ℚ, res_change_30d df ≠ .fin q) := by
  refine ⟨?_, ?_, ?_, ?_⟩
  · intro df h
    rw [rp_change_7d, if_neg (by simp [h])]
  · intro df h
    rw [rrp_change_7d, if_neg (by simp [h])]
  · intro df h
    rw [res_change_30d, if_neg (by omega)]
  · intro df h hz q
    rw [res_change_30d, if_pos h, hz, pctChange, if_pos rfl]
    split_ifs <;> simp

/-- Witness for `c3_zero_guard_amended`: the guarded 7-observation change
on the empty frame, and the unguarded reserve change on the concrete
zero-denominator frame. -/
theorem c3_witness :
    rp_7_ago ([] : List Row) = 0 ∧ rp_change_7d ([] : List Row) = 0 ∧
    reserves_30_ago c3Frame = 0 ∧ res_change_30d c3Frame ≠ PFloat.fin 0 :=
  ⟨rfl, c3_zero_guard_amended.1 [] rfl, rfl,
   c3_zero_guard_amended.2.2.2 c3Frame (by decide) rfl 0⟩

/-- Counterexample to C4: on a 31-row frame the code's reference value is
`iloc[-30]` (here 200, giving a change of 1650%), while the value lying
exactly 30 observations before the latest row is 100 (which would give
3400%); the two computations disagree, so the reference does not lie 30
observations before the latest row. -/
theorem c4_counterexample :
    res_change_30d c4Frame = PFloat.fin 1650 ∧
    (c4Frame.getD (c4Frame.length - 1 - 30) default).reserves = 100 ∧
    pctChange (c4Frame.getLastD default).reserves
      ((c4Frame.getD (c4Frame.length - 1 - 30) default).reserves) = PFloat.fin 3400 ∧
    PFloat.fin (1650 : ℚ) ≠ PFloat.fin 3400 := by
  have hL : (c4Frame.getLastD default).reserves = 3500 := rfl
  have hA : (c4Frame.getD (c4Frame.length - 1 - 30) default).reserves = 100 := rfl
  have h30 : reserves_30_ago c4Frame = 200 := rfl
  have hlen : c4Frame.length = 31 := rfl
  refine ⟨?_, hA, ?_, ?_⟩
  · rw [res_change_30d, if_pos (by rw [hlen]; omega)]
    unfold pctChange
    rw [if_neg (by rw [h30]; norm_num), hL, h30]
    norm_num
  · rw [hL, hA, pctChange, if_neg (by norm_num)]
    norm_num
  · intro hc
    rw [PFloat.fin.injEq] at hc
    norm_num at hc

/-- C4 amended: the reference value of the 30-observation reserve change is
the 30th-from-last observation, i.e. it lies exactly 29 observations before
the latest row (`length - 30 = (length - 1) - 29`); with fewer than 30
observations the change is exactly 0, so the trend rule can never yield the
caution tier in that case. -/
theorem c4_reference_offset_amended :
    (∀ df : List Row, 30 ≤ df.length →
      res_change_30d df =
        pctChange (df.getLastD default).reserves
          ((df.getD (df.length - 30) default).reserves) ∧
      df.length - 30 = df.length - 1 - 29) ∧
    (∀ df : List Row, df.length < 30 →
      res_change_30d df = .fin 0 ∧
      (assess_liquidity_status df).reserves ≠ .caution) := by
  constructor
  · intro df h
    exact ⟨by rw [res_change_30d, if_pos h]; rfl, by omega⟩
  · intro df h
    have hch : res_change_30d df = .fin 0 := by rw [res_change_30d, if_neg (by omega)]
    refine ⟨hch, ?_⟩
    have hres : (assess_liquidity_status df).reserves =
        res_status (df.getLastD default).reserves (res_change_30d df) := rfl
    rw [hres, hch, res_status]
    split_ifs with h1 h2 h3
    · simp
    · simp
    · exact absurd h3 (by simp [PFloat.ltQ])
    · simp

/-- Witness for `c4_reference_offset_amended`: a one-row frame, where the
change is 0 and the reserve tier cannot be caution. -/
theorem c4_witness :
    res_change_30d [resRow 3500] = PFloat.fin 0 ∧
    (assess_liquidity_status [resRow 3500]).reserves ≠ Level.caution :=
  c4_reference_offset_amended.2 [resRow 3500] (by decide)

/-- Counterexample to C6: on an 8-observation series the MA7 value at row 8
(index 7) is the mean of the last 7 observations, here 1, while the mean of
the first `min 8 7 = 7` observations is 0. -/
theorem c6_counterexample :
    (rollingMean 7 c6xs).getD 7 0 = 1 ∧
    listMean (c6xs.take (min 8 7)) = 0 ∧
    (1 : ℚ) ≠ 0 := by
  have hr : rollingMean 7 c6xs = [0, 0, 0, 0, 0, 0, 0, 1] := by
    norm_num [rollingMean, listMean, c6xs, List.range_succ]
  refine ⟨by rw [hr]; rfl, ?_, by norm_num⟩
  norm_num [listMean, c6xs]

/-- C6 amended: the moving averages use `min_periods=1`: at row `k`
(1-indexed; index `k-1`) the MA-w value is the plain mean of the **last**
`min k w` observations among the first `k`; in the expanding phase
(`k ≤ w`) this is the mean of all `k` observations so far, hence a 3-row
series has MA60 equal to the plain mean of the 3 values and the first
row's MA60 is that single observation. -/
theorem c6_expanding_window_amended :
    (∀ (w : ℕ) (xs : List ℚ) (k : ℕ), k < xs.length →
      (rollingMean w xs).getD k 0 = listMean ((xs.take (k + 1)).drop (k + 1 - w)) ∧
      ((xs.take (k + 1)).drop (k + 1 - w)).length = min (k + 1) w) ∧
    (∀ (w : ℕ) (xs : List ℚ) (k : ℕ), k < xs.length → k + 1 ≤ w →
      (rollingMean w xs).getD k 0 = listMean (xs.take (k + 1))) ∧
    (∀ x : ℚ, rollingMean 60 [x] = [x]) ∧
    (∀ a b c : ℚ, rollingMean 60 [a, b, c] = [a, (a + b) / 2, (a + b + c) / 3]) := by
  have hget : ∀ (w : ℕ) (xs : List ℚ) (k : ℕ), k < xs.length →
      (rollingMean w xs).getD k 0 = listMean ((xs.take (k + 1)).drop (k + 1 - w)) := by
    intro w xs k hk
    rw [rollingMean, List.getD_eq_getElem?_getD, List.getElem?_map,
      List.getElem?_range hk]
    rfl
  refine ⟨?_, ?_, ?_, ?_⟩
  · intro w xs k hk
    refine ⟨hget w xs k hk, ?_⟩
    rw [List.length_drop, List.length_take]
    omega
  · intro w xs k hk hw
    rw [hget w xs k hk, Nat.sub_eq_zero_of_le hw, List.drop_zero]
  · intro x
    norm_num [rollingMean, listMean, List.range_succ]
  · intro a b c
    norm_num [rollingMean, listMean, List.range_succ]
    ring_nf

/-- Witness for `c6_expanding_window_amended`: the expanding-window clause
applied at the second row of a two-observation series. -/
theorem c6_witness :
    (1 : ℕ) < [(5 : ℚ), 7].length ∧
    (rollingMean 60 [(5 : ℚ), 7]).getD 1 0 = listMean ([(5 : ℚ), 7].take 2) :=
  ⟨by decide, c6_expanding_window_amended.2.1 60 [(5 : ℚ), 7] 1 (by decide) (by decide)⟩

/-- C9: on a frame with at least 7 rows, the abrupt-RP signal is present
exactly when the 7-observation RP change has magnitude > 50, and the
abrupt-RRP signal exactly when the RRP change has magnitude > 30 —
independently of the assessment `a`, which is universally quantified —
and the risk-signal list is the level-based entries followed by (appended
with, not merged into) the velocity-based entries. -/
theorem c9_abrupt_move_signals (df : List Row) (a : AssessResult) (h7 : 7 ≤ df.length) :
    (Signal.abruptRP ∈ risk_signals df a ↔ 50 < |rp_change_7d df|) ∧
    (Signal.abruptRRP ∈ risk_signals df a ↔ 30 < |rrp_change_7d df|) ∧
    risk_signals df a = level_signals a ++ abrupt_signals df := by
  refine ⟨?_, ?_, rfl⟩ <;>
  · simp only [risk_signals, level_signals, abrupt_signals, if_pos h7, List.mem_append]
    split_ifs <;> simp_all

/-- Witness for `c9_abrupt_move_signals`: a 7-row frame whose RP moves from
10 to 100 (+900%), assessed all-normal. -/
theorem c9_witness :
    7 ≤ c9Frame.length ∧
    (Signal.abruptRP ∈ risk_signals c9Frame normalAssess ↔ 50 < |rp_change_7d c9Frame|) ∧
    (Signal.abruptRRP ∈ risk_signals c9Frame normalAssess ↔ 30 < |rrp_change_7d c9Frame|) ∧
    risk_signals c9Frame normalAssess = level_signals normalAssess ++ abrupt_signals c9Frame :=
  ⟨by decide, c9_abrupt_move_signals c9Frame normalAssess (by decide)⟩

/-- C10 (implicit): on a frame with fewer than 7 rows no velocity change is
computed and no abrupt-move signal is emitted; the risk-signal list is
exactly the level entries of the indicators with ordinal score ≤ 1, and
when that list is empty the all-clear branch is taken. -/
theorem c10_few_rows_no_velocity (df : List Row) (a : AssessResult) (h7 : df.length < 7) :
    risk_signals df a = level_signals a ∧
    Signal.abruptRP ∉ risk_signals df a ∧
    Signal.abruptRRP ∉ risk_signals df a ∧
    (Signal.levelRP ∈ risk_signals df a ↔ a.rp.score ≤ 1) ∧
    (Signal.levelRRP ∈ risk_signals df a ↔ a.rrp.score ≤ 1) ∧
    (Signal.levelReserves ∈ risk_signals df a ↔ a.reserves.score ≤ 1) ∧
    (Signal.levelSpread ∈ risk_signals df a ↔ a.spread.score ≤ 1) ∧
    (level_signals a = [] → risk_display df a = .allClear) := by
  have habr : abrupt_signals df = [] := by
    rw [abrupt_signals, if_neg (by omega)]
  have hrs : risk_signals df a = level_signals a := by
    rw [risk_signals, habr, List.append_nil]
  refine ⟨hrs, ?_, ?_, ?_, ?_, ?_, ?_, ?_⟩
  · rw [hrs, level_signals]; split_ifs <;> simp
  · rw [hrs, level_signals]; split_ifs <;> simp
  · rw [hrs, level_signals]; split_ifs <;> simp_all
  · rw [hrs, level_signals]; split_ifs <;> simp_all
  · rw [hrs, level_signals]; split_ifs <;> simp_all
  · rw [hrs, level_signals]; split_ifs <;> simp_all
  · intro h
    rw [risk_display]
    simp [hrs, h]

/-- Witness for `c10_few_rows_no_velocity`: the empty frame with an
assessment whose RP tier is warning. -/
theorem c10_witness :
    ([] : List Row).length < 7 ∧
    risk_signals [] rpWarnAssess = level_signals rpWarnAssess ∧
    Signal.abruptRP ∉ risk_signals [] rpWarnAssess :=
  ⟨by decide, (c10_few_rows_no_velocity [] rpWarnAssess (by decide)).1,
   (c10_few_rows_no_velocity [] rpWarnAssess (by decide)).2.1⟩

/-- C8: a provider error on a single fetch yields an empty series plus a
warning naming that series (the `name or series_id` of the `st.error`
call); a successful fetch with zero observations yields an empty series
and no warning; a successful fetch keeps its data; and each of the five
series entering the frame depends only on its own provider outcome, so a
failing fetch leaves the sibling fetches and the pipeline intact. -/
theorem c8_fetch_independence :
    (∀ sid nm e : String,
      fetch_data_with_ffill sid nm (.error e) =
        ([], [⟨if nm = "" then sid else nm, e⟩])) ∧
    (∀ sid nm : String, fetch_data_with_ffill sid nm (.ok []) = ([], [])) ∧
    (∀ (sid nm : String) (data : RawSeries), 0 < data.length →
      fetch_data_with_ffill sid nm (.ok data) = (data, [])) ∧
    (∀ (start : ℕ) (rs rs' : Responses),
      rs.rrp = rs'.rrp → rs.reserves = rs'.reserves →
      rs.sofr = rs'.sofr → rs.iorb = rs'.iorb →
      (fetch_liquidity_data start rs).1 =
        build_frame (fetch_data_with_ffill "RPONTSYD" "RP (Repo)" rs.rp).1
          (fetch_data_with_ffill "RRPONTSYD" "RRP (Reverse Repo)" rs'.rrp).1
          (fetch_data_with_ffill "WRESBAL" "은행 지준금" rs'.reserves).1
          (fetch_data_with_ffill "SOFR" "SOFR" rs'.sofr).1
          (fetch_data_with_ffill "IORB" "IORB" rs'.iorb).1 start) := by
  refine ⟨fun sid nm e => rfl, fun sid nm => rfl, ?_, ?_⟩
  · intro sid nm data hd
    simp only [fetch_data_with_ffill, if_pos hd]
  · intro start rs rs' h1 h2 h3 h4
    rw [← h1, ← h2, ← h3, ← h4]
    rfl

/-- Witness for `c8_fetch_independence`: a failing RP fetch yields the
empty series and a warning naming "RP (Repo)", a zero-observation SOFR
fetch yields the empty series without warning, and the frame built with a
failing RP response uses the sibling responses untouched. -/
theorem c8_witness :
    fetch_data_with_ffill "RPONTSYD" "RP (Repo)" (.error "timeout") =
      ([], [⟨"RP (Repo)", "timeout"⟩]) ∧
    fetch_data_with_ffill "SOFR" "SOFR" (.ok []) = ([], []) ∧
    fetch_data_with_ffill "SOFR" "SOFR" (.ok [(1, 4)]) = ([(1, 4)], []) ∧
    (fetch_liquidity_data 0
        ⟨.error "timeout", .ok [(1, 2)], .ok [(1, 3)], .ok [(1, 4)], .ok [(1, 5)]⟩).1 =
      build_frame [] [(1, 2)] [(1, 3)] [(1, 4)] [(1, 5)] 0 := by
  refine ⟨c8_fetch_independence.1 "RPONTSYD" "RP (Repo)" "timeout",
    c8_fetch_independence.2.1 "SOFR" "SOFR",
    c8_fetch_independence.2.2.1 "SOFR" "SOFR" [(1, 4)] (by decide), ?_⟩
  exact c8_fetch_independence.2.2.2 0
    ⟨.error "timeout", .ok [(1, 2)], .ok [(1, 3)], .ok [(1, 4)], .ok [(1, 5)]⟩
    ⟨.ok [], .ok [(1, 2)], .ok [(1, 3)], .ok [(1, 4)], .ok [(1, 5)]⟩
    rfl rfl rfl rfl

/-- Membership in an `insertDate` result. -/
theorem mem_insertDate (a d : ℕ) (l : List ℕ) :
    a ∈ insertDate d l ↔ a = d ∨ a ∈ l := by
  induction l with
  | nil => simp [insertDate]
  | cons e rest ih =>
    unfold insertDate
    split_ifs with h1 h2
    · simp [List.mem_cons]
    · subst h2
      simp [List.mem_cons]
    · simp only [List.mem_cons, ih]
      tauto

/-- `insertDate` preserves strict sortedness. -/
theorem sorted_insertDate (d : ℕ) (l : List ℕ) (h : List.Sorted (· < ·) l) :
    List.Sorted (· < ·) (insertDate d l) := by
  induction l with
  | nil => simp [insertDate]
  | cons e rest ih =>
    rw [List.sorted_cons] at h
    obtain ⟨he, hrest⟩ := h
    unfold insertDate
    split_ifs with h1 h2
    · rw [List.sorted_cons]
      refine ⟨?_, by rw [List.sorted_cons]; exact ⟨he, hrest⟩⟩
      intro b hb
      rcases List.mem_cons.mp hb with hb | hb
      · omega
      · have := he b hb
        omega
    · rw [List.sorted_cons]
      exact ⟨he, hrest⟩
    · rw [List.sorted_cons]
      refine ⟨?_, ih hrest⟩
      intro b hb
      rcases (mem_insertDate b d rest).mp hb with hb | hb
      · omega
      · exact he b hb


/-- Folding a series' dates into a sorted accumulator keeps it sorted. -/
theorem sorted_foldr_insert (s : RawSeries) (acc : List ℕ)
    (h : List.Sorted (· < ·) acc) :
    List.Sorted (· < ·) (s.foldr (fun p acc2 => insertDate p.1 acc2) acc) := by
  induction s with
  | nil => exact h
  | cons p rest ih => exact sorted_insertDate p.1 _ ih

/-- Membership after folding a series' dates into an accumulator. -/
theorem mem_foldr_insert (a : ℕ) (s : RawSeries) (acc : List ℕ) :
    a ∈ s.foldr (fun p acc2 => insertDate p.1 acc2) acc ↔
      (∃ p ∈ s, p.1 = a) ∨ a ∈ acc := by
  induction s with
  | nil => simp
  | cons p rest ih =>
    simp only [List.foldr_cons, mem_insertDate, ih, List.mem_cons]
    constructor
    · rintro (h | (⟨q, hq, rfl⟩ | h))
      · exact Or.inl ⟨p, Or.inl rfl, h.symm⟩
      · exact Or.inl ⟨q, Or.inr hq, rfl⟩
      · exact Or.inr h
    · rintro (⟨q, hq | hq, rfl⟩ | h)
      · subst hq
        exact Or.inl rfl
      · exact Or.inr (Or.inl ⟨q, hq, rfl⟩)
      · exact Or.inr (Or.inr h)

/-- The union of the series' date sets is strictly sorted. -/
theorem unionDates_sorted (ss : List RawSeries) :
    List.Sorted (· < ·) (unionDates ss) := by
  induction ss with
  | nil => simp [unionDates]
  | cons s rest ih => exact sorted_foldr_insert s _ ih

/-- Every observation date of a member series appears in the union. -/
theorem mem_unionDates (ss : List RawSeries) (s : RawSeries) (p : ℕ × ℚ)
    (hs : s ∈ ss) (hp : p ∈ s) : p.1 ∈ unionDates ss := by
  induction ss with
  | nil => cases hs
  | cons t rest ih =>
    rw [unionDates, List.foldr_cons, mem_foldr_insert]
    rcases List.mem_cons.mp hs with h | h
    · subst h
      exact Or.inl ⟨p, hp, rfl⟩
    · exact Or.inr (ih h)

/-- Dropping the head of a nonempty-tailed list keeps `getLast?`. -/
theorem getLast?_cons_of_ne_nil {α : Type} (a : α) (l : List α) (h : l ≠ []) :
    (a :: l).getLast? = l.getLast? := by
  cases l with
  | nil => exact absurd rfl h
  | cons b t => exact List.getLast?_cons_cons

/-- In a strictly sorted series, the most recent observation at or before a
date that carries an observation is that observation. -/
theorem lastObsZ_of_mem (s : RawSeries) (hs : SortedSeries s) (d : ℕ) (v : ℚ)
    (hmem : (d, v) ∈ s) : lastObsZ s d = some v := by
  unfold lastObsZ
  induction s with
  | nil => cases hmem
  | cons p rest ih =>
    rw [SortedSeries, List.pairwise_cons] at hs
    obtain ⟨hhead, hrest⟩ := hs
    rcases List.mem_cons.mp hmem with h | h
    · subst h
      rw [List.filter_cons, if_pos (by simp)]
      have hnil : rest.filter (fun p => decide ((p.1 : ℤ) ≤ (d : ℤ))) = [] := by
        rw [List.filter_eq_nil_iff]
        intro q hq
        have := hhead q hq
        simp only [decide_eq_true_eq]
        push_cast
        omega
      rw [hnil]
      rfl
    · have hlt : p.1 < d := hhead (d, v) h
      rw [List.filter_cons, if_pos (by simp; omega)]
      have htail := ih hrest h
      have hne : rest.filter (fun p => decide ((p.1 : ℤ) ≤ (d : ℤ))) ≠ [] := by
        intro hnil
        rw [hnil] at htail
        simp at htail
      rw [getLast?_cons_of_ne_nil _ _ hne]
      exact htail

/-- When a series has no observation at date `d` and none strictly between
`b` and `d`, the most recent observation at or before `d` is the one at or
before `b`. -/
theorem lastObsZ_congr (s : RawSeries) (d : ℕ) (b : ℤ) (hb : b < (d : ℤ))
    (hnone : ∀ p ∈ s, p.1 ≠ d)
    (hgap : ∀ p ∈ s, (p.1 : ℤ) ≤ b ∨ (d : ℤ) < (p.1 : ℤ)) :
    lastObsZ s d = lastObsZ s b := by
  unfold lastObsZ
  have heq : s.filter (fun p => decide ((p.1 : ℤ) ≤ (d : ℤ))) =
      s.filter (fun p => decide ((p.1 : ℤ) ≤ b)) := by
    apply List.filter_congr
    intro p hp
    rcases hgap p hp with h | h
    · simp only [decide_eq_decide]
      constructor
      · intro _
        exact h
      · intro _
        omega
    · simp only [decide_eq_decide]
      constructor
      · intro hle
        omega
      · intro hle
        omega
  rw [heq]

/-- The fold invariant of frame-level forward fill: starting from the most
recent observation at or before cutoff `b`, filling the joined column over
strictly sorted dates later than `b` that cover all remaining observation
dates produces, at every date, the most recent observation at or before it. -/
theorem ffillCol_join_eq (s : RawSeries) (hs : SortedSeries s) :
    ∀ (dates : List ℕ) (b : ℤ),
      List.Sorted (· < ·) dates →
      (∀ p ∈ s, (p.1 : ℤ) ≤ b ∨ p.1 ∈ dates) →
      (∀ d ∈ dates, b < (d : ℤ)) →
      ffillCol (lastObsZ s b) (joinColumn s dates) = dates.map (lastObs s) := by
  intro dates
  induction dates with
  | nil =>
    intro b _ _ _
    rfl
  | cons d rest ih =>
    intro b hsort hcover hgt
    rw [List.sorted_cons] at hsort
    obtain ⟨hd, hrest⟩ := hsort
    have hbd : b < (d : ℤ) := hgt d (List.mem_cons_self d rest)
    have hcover' : ∀ p ∈ s, (p.1 : ℤ) ≤ (d : ℤ) ∨ p.1 ∈ rest := by
      intro p hp
      rcases hcover p hp with h | h
      · left
        omega
      · rcases List.mem_cons.mp h with h | h
        · left
          rw [h]
        · right
          exact h
    have hgt' : ∀ e ∈ rest, (d : ℤ) < (e : ℤ) := by
      intro e he
      have := hd e he
      push_cast
      omega
    have htail := ih d hrest hcover' hgt'
    rw [show joinColumn s (d :: rest) = exactLookup s d :: joinColumn s rest from rfl,
      List.map_cons]
    cases hexact : exactLookup s d with
    | some v =>
      have hv : lastObsZ s (d : ℤ) = some v := by
        have hfind := hexact
        unfold exactLookup at hfind
        rcases Option.map_eq_some'.mp hfind with ⟨q, hq, hqv⟩
        have hqmem : q ∈ s := List.mem_of_find?_eq_some hq
        have hqd : q.1 = d := by
          have := List.find?_some hq
          simpa using this
        have hdv : (d, v) ∈ s := by
          have hq' : q = (d, v) := by
            cases q
            simp_all
          rwa [hq'] at hqmem
        exact lastObsZ_of_mem s hs d v hdv
      rw [show ffillCol (lastObsZ s b) (some v :: joinColumn s rest) =
          some v :: ffillCol (some v) (joinColumn s rest) from rfl]
      rw [show lastObs s d = some v from hv, ← hv, htail]
    | none =>
      have hnone : ∀ p ∈ s, p.1 ≠ d := by
        intro p hp
        have hfn : s.find? (fun p => p.1 == d) = none :=
          Option.map_eq_none'.mp (by unfold exactLookup at hexact; exact hexact)
        have := List.find?_eq_none.mp hfn p hp
        simpa using this
      have hgap : ∀ p ∈ s, (p.1 : ℤ) ≤ b ∨ (d : ℤ) < (p.1 : ℤ) := by
        intro p hp
        rcases hcover p hp with h | h
        · exact Or.inl h
        · rcases List.mem_cons.mp h with h | h
          · exact absurd h (hnone p hp)
          · have := hd p.1 h
            right
            push_cast
            omega
      have hcarry : lastObsZ s (d : ℤ) = lastObsZ s b := lastObsZ_congr s d b hbd hnone hgap
      have htail2 : ffillCol (lastObsZ s b) (joinColumn s rest) = rest.map (lastObs s) := by
        rw [← hcarry]
        exact htail
      rw [show ffillCol (lastObsZ s b) (none :: joinColumn s rest) =
          lastObsZ s b :: ffillCol (lastObsZ s b) (joinColumn s rest) from rfl]
      rw [show lastObs s d = lastObsZ s b from hcarry, htail2]

/-- Before every date there is no observation. -/
theorem lastObsZ_neg_one (s : RawSeries) : lastObsZ s (-1) = none := by
  unfold lastObsZ
  have hnil : s.filter (fun p => decide ((p.1 : ℤ) ≤ -1)) = [] := by
    rw [List.filter_eq_nil_iff]
    intro p _
    simp only [decide_eq_true_eq]
    omega
  rw [hnil]
  rfl

/-- A forward-filled joined column over the union dates is the pointwise
most-recent-observation function of its series. -/
theorem col_eq (s : RawSeries) (hs : SortedSeries s) (ss : List RawSeries) (hmem : s ∈ ss) :
    ffillCol none (joinColumn s (unionDates ss)) = (unionDates ss).map (lastObs s) := by
  rw [← lastObsZ_neg_one s]
  exact ffillCol_join_eq s hs (unionDates ss) (-1) (unionDates_sorted ss)
    (fun p hp => Or.inr (mem_unionDates ss s p hmem hp))
    (fun d _ => by omega)

/-- Row filtering commutes with building a column as a map over the dates. -/
theorem filterRows_map (dates : List ℕ) (start : ℕ) (f : ℕ → Option ℚ) :
    filterRows dates start (dates.map f) =
      (dates.filter (fun d => decide (start ≤ d))).map f := by
  unfold filterRows
  induction dates with
  | nil => rfl
  | cons d rest ih =>
    by_cases hd : start ≤ d <;> simp [List.filter_cons, hd, ih]

/-- Zipping two columns built over the same date list is a map over it. -/
theorem zipWith_map_same {α β γ δ : Type} (l : List α) (f : α → β) (g : α → γ)
    (h : β → γ → δ) :
    List.zipWith h (l.map f) (l.map g) = l.map (fun a => h (f a) (g a)) := by
  induction l with
  | nil => rfl
  | cons a rest ih => simp [ih]

/-- C7: the aligned frame is the outer join of the five series on the
sorted union of their dates, forward-filled, then truncated to dates ≥
`start` — consequently every raw column equals, at each remaining date, the
most recent observation of its series at or before that date, and the
derived spread column is `(SOFR − IORB) * 100` applied cellwise (NaN
propagating). -/
theorem c7_forward_fill_law (rpS rrpS resS sofrS iorbS : RawSeries) (start : ℕ)
    (f : AlignedFrame) (hf : f = build_frame rpS rrpS resS sofrS iorbS start)
    (h1 : SortedSeries rpS) (h2 : SortedSeries rrpS) (h3 : SortedSeries resS)
    (h4 : SortedSeries sofrS) (h5 : SortedSeries iorbS) :
    f.dates =
      (unionDates [rpS, rrpS, resS, sofrS, iorbS]).filter (fun d => decide (start ≤ d)) ∧
    f.rp = f.dates.map (lastObs rpS) ∧
    f.rrp = f.dates.map (lastObs rrpS) ∧
    f.reserves = f.dates.map (lastObs resS) ∧
    f.sofr = f.dates.map (lastObs sofrS) ∧
    f.iorb = f.dates.map (lastObs iorbS) ∧
    f.spread_bps = f.dates.map (fun d => spreadCell (lastObs sofrS d) (lastObs iorbS d)) ∧
    (∀ a b : ℚ, spreadCell (some a) (some b) = some ((a - b) * 100)) := by
  subst hf
  dsimp only [build_frame]
  refine ⟨rfl, ?_, ?_, ?_, ?_, ?_, ?_, fun a b => rfl⟩
  · rw [col_eq rpS h1 _ (by simp)]
    exact filterRows_map _ start _
  · rw [col_eq rrpS h2 _ (by simp)]
    exact filterRows_map _ start _
  · rw [col_eq resS h3 _ (by simp)]
    exact filterRows_map _ start _
  · rw [col_eq sofrS h4 _ (by simp)]
    exact filterRows_map _ start _
  · rw [col_eq iorbS h5 _ (by simp)]
    exact filterRows_map _ start _
  · rw [col_eq sofrS h4 _ (by simp), col_eq iorbS h5 _ (by simp),
      filterRows_map, filterRows_map, zipWith_map_same]

/-- Witness for `c7_forward_fill_law`: five tiny sorted series and
start date 2. -/
theorem c7_witness :
    SortedSeries w7rp ∧
    (build_frame w7rp w7rrp w7res w7sofr w7iorb 2).rp =
      (build_frame w7rp w7rrp w7res w7sofr w7iorb 2).dates.map (lastObs w7rp) ∧
    (build_frame w7rp w7rrp w7res w7sofr w7iorb 2).spread_bps =
      (build_frame w7rp w7rrp w7res w7sofr w7iorb 2).dates.map
        (fun d => spreadCell (lastObs w7sofr d) (lastObs w7iorb d)) := by
  have hs1 : SortedSeries w7rp := by simp [SortedSeries, w7rp]
  have hs2 : SortedSeries w7rrp := by simp [SortedSeries, w7rrp]
  have hs3 : SortedSeries w7res := by simp [SortedSeries, w7res]
  have hs4 : SortedSeries w7sofr := by simp [SortedSeries, w7sofr]
  have hs5 : SortedSeries w7iorb := by simp [SortedSeries, w7iorb]
  have h := c7_forward_fill_law w7rp w7rrp w7res w7sofr w7iorb 2 _ rfl hs1 hs2 hs3 hs4 hs5
  exact ⟨hs1, h.2.1, h.2.2.2.2.2.2.1⟩

end LiquidityStress
